import Mathlib

/-!
# Verification of the Lughati AI request-gating layer and frontend logic

This file gives a shallow embedding of the request-gating layer described in
the repository's specification (sliding-window rate limiter, daily quota
tracker, admission decision) together with the frontend logic of
`front_end/script.js` (error-message rewriting, double-submit guard, API-key
resolution), and proves the documented properties about them.

The backend module `back_end/app.py` is not part of the available sources
(only the README and the frontend are); the gating-layer definitions below
are therefore modelled from the specification's §3–§4, as indicated on each
definition.  The frontend definitions are translated directly from
`front_end/script.js`.
-/

namespace Lughati

/-- Tunable constant from the spec (§6): `MAX_REQUESTS = 10`. -/
def MAX_REQUESTS : Nat := 10

/-- Tunable constant from the spec (§6): `WINDOW_DURATION = 600` seconds. -/
def WINDOW_DURATION : Nat := 600

/-- Tunable constant from the spec (§6): `FREE_TIER_DAILY_LIMIT = 5`. -/
def FREE_TIER_DAILY_LIMIT : Nat := 5

/-- Modelled from the spec: the calendar date of a timestamp `now` in the
server's local timezone (§4.2 "resolve the calendar date of `now`").  Days
are abstracted as fixed-length blocks of 86400 seconds; the claims only ever
compare resolved dates for equality. -/
def dateOf (now : Nat) : Nat := now / 86400

/-- Modelled from the spec (§3): the two process-wide mutable stores.
`rate` maps a client key to its ordered sequence of recent accepted-request
timestamps (RateWindowEntry); `quota` maps a client key to its daily counter
`(count, day)` when one exists (DailyCounter). -/
structure GateState where
  rate : String → List Nat
  quota : String → Option (Nat × Nat)

/-- The stores are created empty at process start (§3). -/
def initState : GateState :=
  { rate := fun _ => [], quota := fun _ => none }

theorem GateState.ext1 {s t : GateState}
    (hr : ∀ k, s.rate k = t.rate k) (hq : ∀ k, s.quota k = t.quota k) :
    s = t := by
  cases s; cases t
  simp only [GateState.mk.injEq]
  exact ⟨funext hr, funext hq⟩

/-- Modelled from the spec (§4.1): "discard timestamps older than
`now - WINDOW_DURATION`", with the boundary exclusive (§4.1 edge cases: a
timestamp exactly `WINDOW_DURATION` old no longer counts), so a timestamp
`t` is kept iff `now < t + WINDOW_DURATION`. -/
def pruneWindow (now : Nat) (ts : List Nat) : List Nat :=
  ts.filter (fun t => now < t + WINDOW_DURATION)

/-- Modelled from the spec (§4.1): `allow(clientKey, now) -> bool` of the
sliding-window rate limiter.  On each call, discard expired timestamps from
the client's sequence, compare the remaining count to `MAX_REQUESTS`; if
under the limit, record `now` and return true, else return false without
recording. -/
def allow (k : String) (now : Nat) (s : GateState) : Bool × GateState :=
  let kept := pruneWindow now (s.rate k)
  if kept.length < MAX_REQUESTS then
    (true, { s with rate := fun k2 => if k2 = k then kept ++ [now] else s.rate k2 })
  else
    (false, { s with rate := fun k2 => if k2 = k then kept else s.rate k2 })

/-- Modelled from the spec (§4.2): the effective daily count of a client
after the lazy reset — 0 when no counter exists or the stored date differs
from today, the stored count otherwise. -/
def quotaCount (k : String) (today : Nat) (s : GateState) : Nat :=
  match s.quota k with
  | none => 0
  | some (c, d) => if d = today then c else 0

/-- Modelled from the spec (§4.2): `allowFreeTier(clientKey, now) -> bool`
of the daily quota tracker.  If no counter exists for the key, or the stored
date differs from today's date, (re)initialize the count to 0 and the date
to today; if the (possibly reset) count is below `FREE_TIER_DAILY_LIMIT`,
increment and return true, else return false without incrementing. -/
def allowFreeTier (k : String) (now : Nat) (s : GateState) : Bool × GateState :=
  let today := dateOf now
  let c0 := quotaCount k today s
  if c0 < FREE_TIER_DAILY_LIMIT then
    (true, { s with quota := fun k2 => if k2 = k then some (c0 + 1, today) else s.quota k2 })
  else
    (false, { s with quota := fun k2 => if k2 = k then some (c0, today) else s.quota k2 })

/-- The admission verdict (§4.3). -/
inductive Verdict where
  | ALLOWED
  | RATE_LIMITED
  | QUOTA_EXCEEDED
  deriving DecidableEq, Repr

/-- Modelled from the spec (§4.3): the admission decision.  Order of
evaluation is fixed: (1) rate limiter — if rejected, return `RATE_LIMITED`
immediately; (2) if the caller supplied its own credential, return
`ALLOWED`; (3) otherwise consult the quota tracker — if rejected, return
`QUOTA_EXCEEDED`, else `ALLOWED`. -/
def decide (k : String) (hasOwnCredential : Bool) (now : Nat) (s : GateState) :
    Verdict × GateState :=
  let r := allow k now s
  if !r.1 then (Verdict.RATE_LIMITED, r.2)
  else if hasOwnCredential then (Verdict.ALLOWED, r.2)
  else
    let rq := allowFreeTier k now r.2
    if rq.1 then (Verdict.ALLOWED, rq.2) else (Verdict.QUOTA_EXCEEDED, rq.2)

/-- Run the rate limiter sequentially on a list of call timestamps for one
client, collecting the returned booleans. -/
def runRate (k : String) : List Nat → GateState → List Bool × GateState
  | [], s => ([], s)
  | now :: ts, s =>
      let r := allow k now s
      let rest := runRate k ts r.2
      (r.1 :: rest.1, rest.2)

/-- Run the admission decision sequentially on a list of call timestamps for
one client, collecting the verdicts. -/
def runDecide (k : String) (cred : Bool) : List Nat → GateState → List Verdict × GateState
  | [], s => ([], s)
  | now :: ts, s =>
      let r := decide k cred now s
      let rest := runDecide k cred ts r.2
      (r.1 :: rest.1, rest.2)

/-! ## Basic lemmas about the rate limiter -/

theorem allow_fst (k : String) (now : Nat) (s : GateState) :
    (allow k now s).1 = Decidable.decide ((pruneWindow now (s.rate k)).length < MAX_REQUESTS) := by
  by_cases h : (pruneWindow now (s.rate k)).length < MAX_REQUESTS <;> simp [allow, h]

theorem allow_rate_self (k : String) (now : Nat) (s : GateState) :
    (allow k now s).2.rate k =
      if (pruneWindow now (s.rate k)).length < MAX_REQUESTS
      then pruneWindow now (s.rate k) ++ [now] else pruneWindow now (s.rate k) := by
  by_cases h : (pruneWindow now (s.rate k)).length < MAX_REQUESTS <;> simp [allow, h]

theorem allow_rate_other (k k2 : String) (now : Nat) (s : GateState) (h : k2 ≠ k) :
    (allow k now s).2.rate k2 = s.rate k2 := by
  by_cases hc : (pruneWindow now (s.rate k)).length < MAX_REQUESTS <;> simp [allow, hc, h]

theorem allow_quota (k : String) (now : Nat) (s : GateState) :
    (allow k now s).2.quota = s.quota := by
  by_cases hc : (pruneWindow now (s.rate k)).length < MAX_REQUESTS <;> simp [allow, hc]

/-- Timestamps at least `a`, for a call before `a + WINDOW_DURATION`, are all
still inside the window, so pruning drops nothing. -/
theorem pruneWindow_eq_self (now a : Nat) (l : List Nat)
    (hl : ∀ t ∈ l, a ≤ t) (hnow : now < a + WINDOW_DURATION) :
    pruneWindow now l = l := by
  unfold pruneWindow
  rw [List.filter_eq_self]
  intro t ht
  have := hl t ht
  simp only [decide_eq_true_eq]
  omega

/-! ## Basic lemmas about the quota tracker and the admission decision -/

theorem allowFreeTier_fst (k : String) (now : Nat) (s : GateState) :
    (allowFreeTier k now s).1
      = Decidable.decide (quotaCount k (dateOf now) s < FREE_TIER_DAILY_LIMIT) := by
  by_cases h : quotaCount k (dateOf now) s < FREE_TIER_DAILY_LIMIT <;>
    simp [allowFreeTier, h]

theorem allowFreeTier_quota_self (k : String) (now : Nat) (s : GateState) :
    (allowFreeTier k now s).2.quota k =
      some (if quotaCount k (dateOf now) s < FREE_TIER_DAILY_LIMIT
            then quotaCount k (dateOf now) s + 1 else quotaCount k (dateOf now) s,
            dateOf now) := by
  by_cases h : quotaCount k (dateOf now) s < FREE_TIER_DAILY_LIMIT <;>
    simp [allowFreeTier, h]

theorem allowFreeTier_quota_other (k k2 : String) (now : Nat) (s : GateState) (h : k2 ≠ k) :
    (allowFreeTier k now s).2.quota k2 = s.quota k2 := by
  by_cases hc : quotaCount k (dateOf now) s < FREE_TIER_DAILY_LIMIT <;>
    simp [allowFreeTier, hc, h]

theorem allowFreeTier_rate (k : String) (now : Nat) (s : GateState) :
    (allowFreeTier k now s).2.rate = s.rate := by
  by_cases hc : quotaCount k (dateOf now) s < FREE_TIER_DAILY_LIMIT <;>
    simp [allowFreeTier, hc]

theorem decide_of_rate_rejected (k : String) (cred : Bool) (now : Nat) (s : GateState)
    (h : (allow k now s).1 = false) :
    decide k cred now s = (Verdict.RATE_LIMITED, (allow k now s).2) := by
  simp [decide, h]

theorem decide_of_cred (k : String) (now : Nat) (s : GateState)
    (h : (allow k now s).1 = true) :
    decide k true now s = (Verdict.ALLOWED, (allow k now s).2) := by
  simp [decide, h]

theorem decide_of_free (k : String) (now : Nat) (s : GateState)
    (h : (allow k now s).1 = true) :
    decide k false now s
      = (if (allowFreeTier k now (allow k now s).2).1 = true
         then Verdict.ALLOWED else Verdict.QUOTA_EXCEEDED,
         (allowFreeTier k now (allow k now s).2).2) := by
  by_cases hq : (allowFreeTier k now (allow k now s).2).1 = true <;> simp [decide, h, hq]

/-- The boolean outcomes of a run of the rate limiter in which no timestamp
ever expires: starting from a window already holding `n` timestamps, each
call succeeds while the window holds fewer than `MAX_REQUESTS`. -/
def rateResults (n : Nat) : List Nat → List Bool
  | [] => []
  | _ :: ts =>
      if n < MAX_REQUESTS then true :: rateResults (n + 1) ts
      else false :: rateResults n ts

theorem rateResults_eq_replicate (ts : List Nat) :
    ∀ n : Nat, rateResults n ts =
      List.replicate (min (MAX_REQUESTS - n) ts.length) true ++
        List.replicate (ts.length - (MAX_REQUESTS - n)) false := by
  induction ts with
  | nil => intro n; simp [rateResults]
  | cons now ts ih =>
    intro n
    unfold rateResults
    by_cases h : n < MAX_REQUESTS
    · rw [if_pos h, ih (n + 1)]
      have h1 : min (MAX_REQUESTS - n) (now :: ts).length
          = min (MAX_REQUESTS - (n + 1)) ts.length + 1 := by
        simp only [List.length_cons]; omega
      have h2 : (now :: ts).length - (MAX_REQUESTS - n)
          = ts.length - (MAX_REQUESTS - (n + 1)) := by
        simp only [List.length_cons]; omega
      rw [h1, h2, List.replicate_succ]
      simp
    · rw [if_neg h, ih n]
      have h0 : MAX_REQUESTS - n = 0 := by omega
      rw [h0]
      simp [List.replicate_succ]

/-- Main run lemma for the rate limiter: if every stored and every call
timestamp lies in one `WINDOW_DURATION`-wide span `[a, a + WINDOW_DURATION)`,
no timestamp expires during the run, and the boolean outcomes are exactly
`rateResults` of the initial window size; afterwards the window still lies in
the span. -/
theorem runRate_window (k : String) (a : Nat) :
    ∀ (ts : List Nat) (s : GateState),
      (∀ t ∈ ts, a ≤ t ∧ t < a + WINDOW_DURATION) →
      (∀ t ∈ s.rate k, a ≤ t ∧ t < a + WINDOW_DURATION) →
      (runRate k ts s).1 = rateResults (s.rate k).length ts := by
  intro ts
  induction ts with
  | nil => intro s _ _; simp [runRate, rateResults]
  | cons now ts ih =>
    intro s hts hs
    obtain ⟨hna, hnw⟩ := hts now (by simp)
    have hprune : pruneWindow now (s.rate k) = s.rate k :=
      pruneWindow_eq_self now a (s.rate k) (fun t ht => (hs t ht).1) hnw
    have hrun1 : (runRate k (now :: ts) s).1
        = (allow k now s).1 :: (runRate k ts (allow k now s).2).1 := rfl
    have hts' : ∀ t ∈ ts, a ≤ t ∧ t < a + WINDOW_DURATION :=
      fun t ht => hts t (by simp [ht])
    rw [hrun1, allow_fst, hprune]
    rw [show rateResults (s.rate k).length (now :: ts)
        = if (s.rate k).length < MAX_REQUESTS
          then true :: rateResults ((s.rate k).length + 1) ts
          else false :: rateResults (s.rate k).length ts from rfl]
    by_cases h : (s.rate k).length < MAX_REQUESTS
    · rw [if_pos h]
      have hrk : (allow k now s).2.rate k = s.rate k ++ [now] := by
        rw [allow_rate_self, hprune, if_pos h]
      have hs' : ∀ t ∈ (allow k now s).2.rate k, a ≤ t ∧ t < a + WINDOW_DURATION := by
        rw [hrk]
        intro t ht
        rcases List.mem_append.mp ht with h1 | h1
        · exact hs t h1
        · simp only [List.mem_singleton] at h1
          exact h1 ▸ ⟨hna, hnw⟩
      rw [ih (allow k now s).2 hts' hs', hrk]
      simp [h]
    · rw [if_neg h]
      have hrk : (allow k now s).2.rate k = s.rate k := by
        rw [allow_rate_self, hprune, if_neg h]
      have hs' : ∀ t ∈ (allow k now s).2.rate k, a ≤ t ∧ t < a + WINDOW_DURATION := by
        rw [hrk]; exact hs
      rw [ih (allow k now s).2 hts' hs', hrk]
      simp [h]

/-- A fresh client making `MAX_REQUESTS + 1` calls inside one
`WINDOW_DURATION`-wide span gets `true` on the first `MAX_REQUESTS` calls
and `false` on the last. -/
theorem runRate_fresh_span (k : String) (a : Nat) (ts : List Nat) (s : GateState)
    (hlen : ts.length = MAX_REQUESTS + 1)
    (hin : ∀ t ∈ ts, a ≤ t ∧ t < a + WINDOW_DURATION)
    (hs : s.rate k = []) :
    (runRate k ts s).1 = List.replicate MAX_REQUESTS true ++ [false] := by
  have h0 : ∀ t ∈ s.rate k, a ≤ t ∧ t < a + WINDOW_DURATION := by simp [hs]
  rw [runRate_window k a ts s hin h0, hs]
  rw [show ([] : List Nat).length = 0 from rfl, rateResults_eq_replicate ts 0, hlen]
  have h1 : min (MAX_REQUESTS - 0) (MAX_REQUESTS + 1) = MAX_REQUESTS := by omega
  have h2 : MAX_REQUESTS + 1 - (MAX_REQUESTS - 0) = 1 := by omega
  rw [h1, h2]
  rfl

/-! ## Claim C1 -/

/-- C1: For every client key and every time span of width `WINDOW_DURATION`,
the rate limiter's `allow(clientKey, now)` returns true for the first
`MAX_REQUESTS = 10` calls whose timestamps fall in that span and false for
the `(MAX_REQUESTS + 1)`-th call in the same span; on every true return it
appends `now` to that client's timestamp sequence, and on every false return
it records nothing (the stored sequence is only the pruned one, with no new
timestamp). -/
theorem C1_rate_limiter_window (k : String) (a : Nat) (ts : List Nat) (s : GateState)
    (hlen : ts.length = MAX_REQUESTS + 1)
    (hin : ∀ t ∈ ts, a ≤ t ∧ t < a + WINDOW_DURATION)
    (hs : s.rate k = []) :
    (runRate k ts s).1 = List.replicate MAX_REQUESTS true ++ [false]
    ∧ ∀ (now : Nat) (u : GateState),
        ((allow k now u).1 = true →
          (allow k now u).2.rate k = pruneWindow now (u.rate k) ++ [now])
        ∧ ((allow k now u).1 = false →
          (allow k now u).2.rate k = pruneWindow now (u.rate k)) := by
  constructor
  · exact runRate_fresh_span k a ts s hlen hin hs
  · intro now u
    constructor
    · intro h
      rw [allow_fst] at h
      simp only [decide_eq_true_eq] at h
      rw [allow_rate_self, if_pos h]
    · intro h
      rw [allow_fst] at h
      simp only [decide_eq_false_iff_not] at h
      rw [allow_rate_self, if_neg h]

/-- Witness for C1 at a concrete input: eleven calls at times `0..10` for a
fresh client, within the span `[0, 600)`. -/
theorem C1_rate_limiter_window_witness :
    (runRate "client" [0, 1, 2, 3, 4, 5, 6, 7, 8, 9, 10] initState).1
      = List.replicate MAX_REQUESTS true ++ [false] :=
  (C1_rate_limiter_window "client" 0 [0, 1, 2, 3, 4, 5, 6, 7, 8, 9, 10] initState
    (by decide) (by decide) rfl).1

/-! ## Claim C2 -/

/-- With a credential, a run of the admission decision is the run of the
rate limiter with `true` mapped to `ALLOWED` and `false` to `RATE_LIMITED`,
and goes through the same states. -/
theorem runDecide_cred (k : String) :
    ∀ (ts : List Nat) (s : GateState),
      (runDecide k true ts s).1
        = (runRate k ts s).1.map
            (fun b => if b then Verdict.ALLOWED else Verdict.RATE_LIMITED)
      ∧ (runDecide k true ts s).2 = (runRate k ts s).2 := by
  intro ts
  induction ts with
  | nil => intro s; exact ⟨rfl, rfl⟩
  | cons now ts ih =>
    intro s
    have hd : (runDecide k true (now :: ts) s).1
        = (decide k true now s).1 :: (runDecide k true ts (decide k true now s).2).1 := rfl
    have hr : (runRate k (now :: ts) s).1
        = (allow k now s).1 :: (runRate k ts (allow k now s).2).1 := rfl
    have hd2 : (runDecide k true (now :: ts) s).2
        = (runDecide k true ts (decide k true now s).2).2 := rfl
    have hr2 : (runRate k (now :: ts) s).2
        = (runRate k ts (allow k now s).2).2 := rfl
    cases hb : (allow k now s).1 with
    | false =>
      rw [hd, hr, hd2, hr2, decide_of_rate_rejected k true now s hb, hb]
      obtain ⟨ih1, ih2⟩ := ih (allow k now s).2
      exact ⟨by simp [ih1], ih2⟩
    | true =>
      rw [hd, hr, hd2, hr2, decide_of_cred k now s hb, hb]
      obtain ⟨ih1, ih2⟩ := ih (allow k now s).2
      exact ⟨by simp [ih1], ih2⟩

/-- C2: For every client key and time, if `hasOwnCredential` is true then
`decide` never consults or mutates the daily quota tracker (its result is
determined by the rate limiter alone and the quota store is unchanged) and
never returns `QUOTA_EXCEEDED`; yet a credentialed client making
`MAX_REQUESTS + 1 = 11` calls within 1 second gets `ALLOWED` on the first
10 calls and `RATE_LIMITED` on the 11th. -/
theorem C2_credential_bypass (k : String) (a : Nat) (ts : List Nat) (s : GateState)
    (hlen : ts.length = MAX_REQUESTS + 1)
    (hin : ∀ t ∈ ts, a ≤ t ∧ t < a + 1)
    (hs : s.rate k = []) :
    (∀ (now : Nat) (u : GateState),
      decide k true now u
        = (if (allow k now u).1 = true then Verdict.ALLOWED else Verdict.RATE_LIMITED,
           (allow k now u).2)
      ∧ (decide k true now u).2.quota = u.quota
      ∧ (decide k true now u).1 ≠ Verdict.QUOTA_EXCEEDED)
    ∧ (runDecide k true ts s).1
        = List.replicate MAX_REQUESTS Verdict.ALLOWED ++ [Verdict.RATE_LIMITED] := by
  constructor
  · intro now u
    have hshape : decide k true now u
        = (if (allow k now u).1 = true then Verdict.ALLOWED else Verdict.RATE_LIMITED,
           (allow k now u).2) := by
      cases hb : (allow k now u).1 with
      | false => rw [decide_of_rate_rejected k true now u hb]; simp
      | true => rw [decide_of_cred k now u hb]; simp
    refine ⟨hshape, ?_, ?_⟩
    · rw [hshape]
      exact allow_quota k now u
    · rw [hshape]
      cases hb : (allow k now u).1 <;> simp
  · have hin600 : ∀ t ∈ ts, a ≤ t ∧ t < a + WINDOW_DURATION := by
      intro t ht
      have := hin t ht
      unfold WINDOW_DURATION
      omega
    have hrate := runRate_fresh_span k a ts s hlen hin600 hs
    rw [(runDecide_cred k ts s).1, hrate]
    rfl

/-- Witness for C2 at a concrete input: client "B" with a credential makes
11 calls at time 0 (within 1 second) starting from the empty state. -/
theorem C2_credential_bypass_witness :
    (runDecide "B" true [0, 0, 0, 0, 0, 0, 0, 0, 0, 0, 0] initState).1
      = List.replicate MAX_REQUESTS Verdict.ALLOWED ++ [Verdict.RATE_LIMITED] :=
  (C2_credential_bypass "B" 0 [0, 0, 0, 0, 0, 0, 0, 0, 0, 0, 0] initState
    (by decide) (by decide) rfl).2

/-! ## Claim C3 -/

/-- C3: For every client key, credential flag, and time, whenever `decide`
returns `RATE_LIMITED` the daily quota tracker's state — the entry of every
client — is exactly the same after the call as before it. -/
theorem C3_rate_limited_frame (k : String) (cred : Bool) (now : Nat) (s : GateState)
    (h : (decide k cred now s).1 = Verdict.RATE_LIMITED) :
    ∀ k2, (decide k cred now s).2.quota k2 = s.quota k2 := by
  intro k2
  cases hb : (allow k now s).1 with
  | false =>
    rw [decide_of_rate_rejected k cred now s hb]
    rw [show ((Verdict.RATE_LIMITED, (allow k now s).2)).2 = (allow k now s).2 from rfl,
      allow_quota]
  | true =>
    exfalso
    cases cred with
    | true =>
      rw [decide_of_cred k now s hb] at h
      exact Verdict.noConfusion h
    | false =>
      rw [decide_of_free k now s hb] at h
      by_cases hq : (allowFreeTier k now (allow k now s).2).1 = true
      · rw [if_pos hq] at h
        exact Verdict.noConfusion h
      · rw [if_neg hq] at h
        exact Verdict.noConfusion h

/-- A state in which client "c" already holds `MAX_REQUESTS` fresh
timestamps, used to exercise a rate-limited rejection concretely. -/
def fullRateState : GateState :=
  { rate := fun k => if k = "c" then [0, 0, 0, 0, 0, 0, 0, 0, 0, 0] else [],
    quota := fun k => if k = "c" then some (3, 0) else none }

/-- Witness for C3 at a concrete input: a call at time 0 for client "c",
whose window already holds 10 timestamps, is rate-limited and leaves the
quota store untouched. -/
theorem C3_rate_limited_frame_witness :
    (decide "c" false 0 fullRateState).1 = Verdict.RATE_LIMITED
    ∧ ∀ k2, (decide "c" false 0 fullRateState).2.quota k2 = fullRateState.quota k2 :=
  ⟨by decide, C3_rate_limited_frame "c" false 0 fullRateState (by decide)⟩

/-! ## Claim C4 -/

/-- C4: For every client key, if the stored daily counter's day differs from
the calendar date of the supplied `now`, the first `allowFreeTier` call on
the new date resets the count to 0 and the day to today before evaluating
the limit (so the call succeeds and stores count 1 for today); moreover
after any call the stored day is the date of `now`, so a stored count only
ever reflects requests of the day stored alongside it. -/
theorem C4_lazy_daily_reset (k : String) (now : Nat) (s : GateState) (c d : Nat)
    (hq : s.quota k = some (c, d)) (hd : d ≠ dateOf now) :
    (allowFreeTier k now s).1 = true
    ∧ (allowFreeTier k now s).2.quota k = some (1, dateOf now)
    ∧ ∀ u : GateState, ∃ c2 : Nat,
        (allowFreeTier k now u).2.quota k = some (c2, dateOf now) := by
  have hc0 : quotaCount k (dateOf now) s = 0 := by
    unfold quotaCount
    rw [hq]
    simp [hd]
  have hlt : quotaCount k (dateOf now) s < FREE_TIER_DAILY_LIMIT := by
    rw [hc0]; unfold FREE_TIER_DAILY_LIMIT; omega
  refine ⟨?_, ?_, ?_⟩
  · rw [allowFreeTier_fst]
    simp [hlt]
  · rw [allowFreeTier_quota_self, if_pos hlt, hc0]
  · intro u
    refine ⟨if quotaCount k (dateOf now) u < FREE_TIER_DAILY_LIMIT
            then quotaCount k (dateOf now) u + 1 else quotaCount k (dateOf now) u, ?_⟩
    exact allowFreeTier_quota_self k now u

/-- A state holding a stale daily counter (count 3 on day 0) for client
"c". -/
def staleQuotaState : GateState :=
  { rate := fun _ => [], quota := fun k => if k = "c" then some (3, 0) else none }

/-- Witness for C4 at a concrete input: client "c" holds count 3 from day 0;
a call at `now = 86400` (day 1) succeeds and stores count 1 for day 1. -/
theorem C4_lazy_daily_reset_witness :
    (allowFreeTier "c" 86400 staleQuotaState).1 = true
    ∧ (allowFreeTier "c" 86400 staleQuotaState).2.quota "c" = some (1, dateOf 86400) :=
  ⟨(C4_lazy_daily_reset "c" 86400 staleQuotaState 3 0 rfl (by decide)).1,
   (C4_lazy_daily_reset "c" 86400 staleQuotaState 3 0 rfl (by decide)).2.1⟩

/-! ## Claim C5 -/

/-- The verdict outcomes of a credential-less run in which every call passes
the rate limiter: starting from an effective daily count `c`, each call is
allowed while `c` is below `FREE_TIER_DAILY_LIMIT`. -/
def quotaResults (c : Nat) : Nat → List Verdict
  | 0 => []
  | n + 1 =>
      if c < FREE_TIER_DAILY_LIMIT then Verdict.ALLOWED :: quotaResults (c + 1) n
      else Verdict.QUOTA_EXCEEDED :: quotaResults c n

theorem quotaResults_eq_replicate (n : Nat) :
    ∀ c : Nat, quotaResults c n =
      List.replicate (min (FREE_TIER_DAILY_LIMIT - c) n) Verdict.ALLOWED ++
        List.replicate (n - (FREE_TIER_DAILY_LIMIT - c)) Verdict.QUOTA_EXCEEDED := by
  induction n with
  | zero => intro c; simp [quotaResults]
  | succ n ih =>
    intro c
    rw [show quotaResults c (n + 1)
        = if c < FREE_TIER_DAILY_LIMIT
          then Verdict.ALLOWED :: quotaResults (c + 1) n
          else Verdict.QUOTA_EXCEEDED :: quotaResults c n from rfl]
    by_cases h : c < FREE_TIER_DAILY_LIMIT
    · rw [if_pos h, ih (c + 1)]
      have h1 : min (FREE_TIER_DAILY_LIMIT - c) (n + 1)
          = min (FREE_TIER_DAILY_LIMIT - (c + 1)) n + 1 := by omega
      have h2 : (n + 1) - (FREE_TIER_DAILY_LIMIT - c)
          = n - (FREE_TIER_DAILY_LIMIT - (c + 1)) := by omega
      rw [h1, h2, List.replicate_succ]
      simp
    · rw [if_neg h, ih c]
      have h0 : FREE_TIER_DAILY_LIMIT - c = 0 := by omega
      rw [h0]
      simp [List.replicate_succ]

/-- Main run lemma for a credential-less client whose calls all happen at
one instant `a` and never exceed the rate limit: the verdicts follow the
quota alone, starting from the client's current effective daily count. -/
theorem runDecide_free_const (k : String) (a : Nat) :
    ∀ (n : Nat) (s : GateState),
      (∀ t ∈ s.rate k, a ≤ t ∧ t < a + WINDOW_DURATION) →
      (s.rate k).length + n ≤ MAX_REQUESTS →
      (runDecide k false (List.replicate n a) s).1
        = quotaResults (quotaCount k (dateOf a) s) n := by
  intro n
  induction n with
  | zero => intro s _ _; simp [runDecide, quotaResults]
  | succ n ih =>
    intro s hwin hlen
    have hW : 0 < WINDOW_DURATION := by unfold WINDOW_DURATION; omega
    have hprune : pruneWindow a (s.rate k) = s.rate k :=
      pruneWindow_eq_self a a (s.rate k) (fun t ht => (hwin t ht).1) (by omega)
    have hlt : (s.rate k).length < MAX_REQUESTS := by omega
    have hb : (allow k a s).1 = true := by
      rw [allow_fst, hprune]
      simp [hlt]
    have hs1rate : (allow k a s).2.rate k = s.rate k ++ [a] := by
      rw [allow_rate_self, hprune, if_pos hlt]
    have hq1 : quotaCount k (dateOf a) (allow k a s).2 = quotaCount k (dateOf a) s := by
      unfold quotaCount
      rw [allow_quota]
    have hd : (runDecide k false (a :: List.replicate n a) s).1
        = (decide k false a s).1
          :: (runDecide k false (List.replicate n a) (decide k false a s).2).1 := rfl
    rw [List.replicate_succ, hd, decide_of_free k a s hb]
    show (if (allowFreeTier k a (allow k a s).2).1 = true
          then Verdict.ALLOWED else Verdict.QUOTA_EXCEEDED)
        :: (runDecide k false (List.replicate n a) (allowFreeTier k a (allow k a s).2).2).1
      = quotaResults (quotaCount k (dateOf a) s) (n + 1)
    have hsqfst : (allowFreeTier k a (allow k a s).2).1
        = Decidable.decide (quotaCount k (dateOf a) s < FREE_TIER_DAILY_LIMIT) := by
      rw [allowFreeTier_fst, hq1]
    have hsqrate : (allowFreeTier k a (allow k a s).2).2.rate k = s.rate k ++ [a] := by
      rw [show (allowFreeTier k a (allow k a s).2).2.rate = (allow k a s).2.rate
          from allowFreeTier_rate k a (allow k a s).2, hs1rate]
    have hsqquota : (allowFreeTier k a (allow k a s).2).2.quota k
        = some (if quotaCount k (dateOf a) s < FREE_TIER_DAILY_LIMIT
                then quotaCount k (dateOf a) s + 1 else quotaCount k (dateOf a) s,
                dateOf a) := by
      rw [allowFreeTier_quota_self, hq1]
    have hq2 : quotaCount k (dateOf a) (allowFreeTier k a (allow k a s).2).2
        = if quotaCount k (dateOf a) s < FREE_TIER_DAILY_LIMIT
          then quotaCount k (dateOf a) s + 1 else quotaCount k (dateOf a) s := by
      show (match (allowFreeTier k a (allow k a s).2).2.quota k with
            | none => 0
            | some (c, d) => if d = dateOf a then c else 0) = _
      rw [hsqquota]
      simp
    have hwin2 : ∀ t ∈ (allowFreeTier k a (allow k a s).2).2.rate k,
        a ≤ t ∧ t < a + WINDOW_DURATION := by
      rw [hsqrate]
      intro t ht
      rcases List.mem_append.mp ht with h1 | h1
      · exact hwin t h1
      · simp only [List.mem_singleton] at h1
        subst h1
        omega
    have hlen2 : ((allowFreeTier k a (allow k a s).2).2.rate k).length + n ≤ MAX_REQUESTS := by
      rw [hsqrate]
      simp only [List.length_append, List.length_singleton]
      omega
    rw [ih (allowFreeTier k a (allow k a s).2).2 hwin2 hlen2, hq2, hsqfst]
    rw [show quotaResults (quotaCount k (dateOf a) s) (n + 1)
        = if quotaCount k (dateOf a) s < FREE_TIER_DAILY_LIMIT
          then Verdict.ALLOWED :: quotaResults (quotaCount k (dateOf a) s + 1) n
          else Verdict.QUOTA_EXCEEDED :: quotaResults (quotaCount k (dateOf a) s) n from rfl]
    by_cases hc : quotaCount k (dateOf a) s < FREE_TIER_DAILY_LIMIT
    · simp [hc]
    · simp [hc]

/-- C5: For a client with no credential, no prior quota usage, and an empty
rate window, a run of `MAX_REQUESTS = 10` decide calls within 1 second
returns `ALLOWED` for the first `FREE_TIER_DAILY_LIMIT = 5` calls and
`QUOTA_EXCEEDED` (not `RATE_LIMITED`) for the remaining 5: all 10 calls pass
the rate limiter while the quota is exhausted after 5. -/
theorem C5_free_tier_scenario (k : String) (a : Nat) (ts : List Nat) (s : GateState)
    (hlen : ts.length = MAX_REQUESTS)
    (hin : ∀ t ∈ ts, a ≤ t ∧ t < a + 1)
    (hrate : s.rate k = []) (hquota : s.quota k = none) :
    (runDecide k false ts s).1
      = List.replicate FREE_TIER_DAILY_LIMIT Verdict.ALLOWED
        ++ List.replicate (MAX_REQUESTS - FREE_TIER_DAILY_LIMIT) Verdict.QUOTA_EXCEEDED := by
  have hts : ts = List.replicate ts.length a := by
    apply List.eq_replicate_of_mem
    intro t ht
    have := hin t ht
    omega
  have hwin : ∀ t ∈ s.rate k, a ≤ t ∧ t < a + WINDOW_DURATION := by simp [hrate]
  have hlen0 : (s.rate k).length + ts.length ≤ MAX_REQUESTS := by
    rw [hrate]
    simp [hlen]
  have hqc : quotaCount k (dateOf a) s = 0 := by
    unfold quotaCount
    rw [hquota]
  have key := runDecide_free_const k a ts.length s hwin hlen0
  rw [← hts] at key
  rw [key, hqc, hlen, quotaResults_eq_replicate MAX_REQUESTS 0]
  rfl

/-- Witness for C5 at a concrete input: client "A" makes 10 calls at time 0
starting from the empty state. -/
theorem C5_free_tier_scenario_witness :
    (runDecide "A" false [0, 0, 0, 0, 0, 0, 0, 0, 0, 0] initState).1
      = List.replicate FREE_TIER_DAILY_LIMIT Verdict.ALLOWED
        ++ List.replicate (MAX_REQUESTS - FREE_TIER_DAILY_LIMIT) Verdict.QUOTA_EXCEEDED :=
  C5_free_tier_scenario "A" 0 [0, 0, 0, 0, 0, 0, 0, 0, 0, 0] initState
    (by decide) (by decide) rfl rfl

/-! ## Claim C6 -/

theorem pruneWindow_filter_expired (t : Nat) (l : List Nat) :
    pruneWindow (t + WINDOW_DURATION) (l.filter (fun u => u != t))
      = pruneWindow (t + WINDOW_DURATION) l := by
  unfold pruneWindow
  rw [List.filter_filter]
  apply List.filter_congr
  intro u _
  by_cases hlt : t + WINDOW_DURATION < u + WINDOW_DURATION
  · have hne : (u != t) = true := by
      simp only [bne_iff_ne, ne_eq]
      omega
    simp [hlt, hne]
  · simp [hlt]

/-- C6: A stored timestamp `t` no longer counts against the rate limit for a
call at time `t + WINDOW_DURATION`: it is removed by pruning, it is absent
from the stored sequence after the call, and the whole outcome of `allow`
(decision and state) is the same as if every copy of `t` had already been
discarded. -/
theorem C6_boundary_exclusive (k : String) (t : Nat) (s : GateState) :
    t ∉ pruneWindow (t + WINDOW_DURATION) (s.rate k)
    ∧ t ∉ (allow k (t + WINDOW_DURATION) s).2.rate k
    ∧ allow k (t + WINDOW_DURATION) s
        = allow k (t + WINDOW_DURATION)
            { s with rate := fun k2 => if k2 = k then (s.rate k2).filter (fun u => u != t)
                                       else s.rate k2 } := by
  have hW : 0 < WINDOW_DURATION := by unfold WINDOW_DURATION; omega
  have hmem : t ∉ pruneWindow (t + WINDOW_DURATION) (s.rate k) := by
    intro hmem
    have := List.of_mem_filter hmem
    simp only [decide_eq_true_eq] at this
    omega
  refine ⟨hmem, ?_, ?_⟩
  · rw [allow_rate_self]
    by_cases h : (pruneWindow (t + WINDOW_DURATION) (s.rate k)).length < MAX_REQUESTS
    · rw [if_pos h]
      intro hmem2
      rcases List.mem_append.mp hmem2 with h1 | h1
      · exact hmem h1
      · simp only [List.mem_singleton] at h1
        omega
    · rw [if_neg h]
      exact hmem
  · set s2 : GateState :=
      { s with rate := fun k2 => if k2 = k then (s.rate k2).filter (fun u => u != t)
                                 else s.rate k2 } with hs2
    have hk : s2.rate k = (s.rate k).filter (fun u => u != t) := by
      rw [hs2]
      simp
    have hother : ∀ k2, k2 ≠ k → s2.rate k2 = s.rate k2 := by
      intro k2 hne
      rw [hs2]
      simp [hne]
    have hpr : pruneWindow (t + WINDOW_DURATION) (s2.rate k)
        = pruneWindow (t + WINDOW_DURATION) (s.rate k) := by
      rw [hk]
      exact pruneWindow_filter_expired t (s.rate k)
    unfold allow
    rw [hpr]
    by_cases h : (pruneWindow (t + WINDOW_DURATION) (s.rate k)).length < MAX_REQUESTS
    · rw [if_pos h, if_pos h]
      refine Prod.ext rfl ?_
      apply GateState.ext1
      · intro k2
        by_cases hk2 : k2 = k
        · simp [hk2]
        · simp [hk2, hother k2 hk2]
      · intro k2
        rfl
    · rw [if_neg h, if_neg h]
      refine Prod.ext rfl ?_
      apply GateState.ext1
      · intro k2
        by_cases hk2 : k2 = k
        · simp [hk2]
        · simp [hk2, hother k2 hk2]
      · intro k2
        rfl

/-!
## Frontend (`front_end/script.js`)

JavaScript strings are embedded as `List Char`; `trim`, `toLowerCase` and
`includes` are given explicit list-level definitions matching the JS
built-ins on the ASCII text that occurs here.
-/

/-- JS `String.prototype.trim`: whitespace removed from both ends. -/
def jsTrim (l : List Char) : List Char :=
  ((l.dropWhile Char.isWhitespace).reverse.dropWhile Char.isWhitespace).reverse

/-- JS `String.prototype.toLowerCase` on ASCII text. -/
def jsToLower (l : List Char) : List Char := l.map Char.toLower

/-- Whether the first list is an initial segment of the second. -/
def startsWithCL : List Char → List Char → Bool
  | [], _ => true
  | _ :: _, [] => false
  | a :: as, b :: bs => a == b && startsWithCL as bs

/-- JS `String.prototype.includes`: the pattern occurs somewhere in the
string. -/
def jsIncludes (pat : List Char) : List Char → Bool
  | [] => pat.isEmpty
  | c :: rest => startsWithCL pat (c :: rest) || jsIncludes pat rest

/-- `script.js` line 270: the upsell message shown for the daily free
limit. -/
def dailyLimitMsg : List Char :=
  "Daily free limit reached. Add your own OpenAI key for unlimited usage (your billing) or subscribe to unlock more.".data

/-- `script.js` line 275: the retryable rate-limit message. -/
def rateLimitMsg : List Char :=
  "Too many requests. Please wait a moment and try again.".data

/-- `script.js` lines 268–271: if the parsed error message mentions the
daily free limit (either capitalisation), replace it with the upsell
message. -/
def applyDailyRewrite (msg : List Char) : List Char :=
  if jsIncludes "Daily free limit".data msg || jsIncludes "daily free limit".data msg
  then dailyLimitMsg else msg

/-- `script.js` lines 273–276: if the response status is 429 or the (already
rewritten) message mentions a rate limit or too many requests, replace it
with the retryable message. -/
def applyRateRewrite (status : Nat) (msg : List Char) : List Char :=
  if status == 429 || jsIncludes "rate limit".data (jsToLower msg)
      || jsIncludes "too many requests".data (jsToLower msg)
  then rateLimitMsg else msg

/-- `script.js` lines 233–278: the final error message thrown (and then
displayed) for a non-ok response, as a function of the response status and
the parsed error-body message. -/
def finalErrorMessage (status : Nat) (msg : List Char) : List Char :=
  applyRateRewrite status (applyDailyRewrite msg)

/-! ## Claim C8 -/

/-- C8: whenever the error response body mentions the daily free limit,
`handleGenerate` displays the credential-bypass upsell message — unless the
status is 429, in which case the 429 rewrite takes precedence and the
retryable rate-limit message is shown; and whenever the status is 429 or
the message (after the daily rewrite) mentions a rate limit or too many
requests, the retryable rate-limit message is shown. -/
theorem C8_error_message_translation (status : Nat) (msg : List Char) :
    ((jsIncludes "Daily free limit".data msg = true
        ∨ jsIncludes "daily free limit".data msg = true) →
      finalErrorMessage status msg
        = if status = 429 then rateLimitMsg else dailyLimitMsg)
    ∧ ((status = 429
        ∨ jsIncludes "rate limit".data (jsToLower (applyDailyRewrite msg)) = true
        ∨ jsIncludes "too many requests".data (jsToLower (applyDailyRewrite msg)) = true) →
      finalErrorMessage status msg = rateLimitMsg) := by
  constructor
  · intro h
    have hdaily : applyDailyRewrite msg = dailyLimitMsg := by
      unfold applyDailyRewrite
      rcases h with h | h <;> simp [h]
    have hnorate : jsIncludes "rate limit".data (jsToLower dailyLimitMsg) = false := by decide
    have hnomany : jsIncludes "too many requests".data (jsToLower dailyLimitMsg) = false := by
      decide
    unfold finalErrorMessage
    rw [hdaily]
    unfold applyRateRewrite
    rw [hnorate, hnomany]
    by_cases hs : status = 429
    · simp [hs]
    · have : (status == 429) = false := by simp [hs]
      simp [this, hs]
  · intro h
    unfold finalErrorMessage applyRateRewrite
    rcases h with h | h | h
    · simp [h]
    · simp [h]
    · simp [h]

/-- Witness for C8 at concrete inputs: a 403 daily-limit body shows the
upsell message; the same body with status 429 shows the retryable
message. -/
theorem C8_error_message_translation_witness :
    finalErrorMessage 403 "Daily free limit reached (5/day).".data = dailyLimitMsg
    ∧ finalErrorMessage 429 "Daily free limit reached (5/day).".data = rateLimitMsg := by
  constructor
  · have h := (C8_error_message_translation 403 "Daily free limit reached (5/day).".data).1
      (Or.inl (by decide))
    simpa using h
  · have h := (C8_error_message_translation 429 "Daily free limit reached (5/day).".data).1
      (Or.inl (by decide))
    simpa using h

/-! ## Claim C9 -/

/-- The frontend state touched by `handleGenerate`: the `isProcessing` flag,
the generate button (disabled flag and label), the two text areas, and the
status line (`none` = hidden). -/
structure UIState where
  isProcessing : Bool
  btnDisabled : Bool
  btnText : List Char
  inputVal : List Char
  outputVal : List Char
  statusMsg : Option (List Char × List Char)
  deriving DecidableEq

/-- How the awaited fetch settles: an ok response carrying `data.result`, a
non-ok response carrying its status and parsed error-body message, or a
thrown network/parse error. -/
inductive FetchOutcome where
  | success (result : List Char)
  | httpError (status : Nat) (errorBody : List Char)
  | networkError (msg : List Char)
  deriving DecidableEq

/-- `script.js` lines 180–211 (the part of `handleGenerate` before the
`fetch`): the double-submit guards, the empty-input check, and the
processing-state setup.  Returns the new state and whether a request is
sent.  (The required DOM elements are assumed present, as checked by
`initializeDOM`.) -/
def startGenerate (st : UIState) : UIState × Bool :=
  if st.isProcessing then (st, false)
  else if st.btnDisabled then (st, false)
  else if (jsTrim st.inputVal).isEmpty then
    ({ st with statusMsg := some ("Please enter some text to process.".data, "error".data) },
     false)
  else
    ({ st with isProcessing := true,
               btnDisabled := true,
               btnText := "Processing...".data,
               statusMsg := some ("Processing your request...".data, "loading".data),
               outputVal := [] }, true)

/-- `script.js` lines 233–303 (the part of `handleGenerate` after the
`fetch` settles): result/error handling followed by the `finally` block,
which always clears `isProcessing`, re-enables the button and restores its
label. -/
def completeGenerate (st : UIState) (o : FetchOutcome) : UIState :=
  let st1 :=
    match o with
    | FetchOutcome.success r =>
        { st with outputVal := r,
                  statusMsg := some ("Text processed successfully!".data, "success".data) }
    | FetchOutcome.httpError status body =>
        { st with
            statusMsg := some ("Error: ".data ++ finalErrorMessage status body, "error".data),
            outputVal := [] }
    | FetchOutcome.networkError m =>
        { st with statusMsg := some ("Error: ".data ++ m, "error".data), outputVal := [] }
  { st1 with isProcessing := false, btnDisabled := false, btnText := "Fix / Rewrite".data }

/-- One whole `handleGenerate` invocation whose request (if sent) settles
with outcome `o`: the final state and whether a request was sent. -/
def handleGenerate (st : UIState) (o : FetchOutcome) : UIState × Bool :=
  if (startGenerate st).2 then (completeGenerate (startGenerate st).1 o, true)
  else ((startGenerate st).1, false)

/-- Interleaving events: a `handleGenerate` invocation reaching its
synchronous prefix, or an in-flight request settling. -/
inductive UIEvent where
  | start
  | complete (o : FetchOutcome)

/-- The frontend together with the number of generate requests currently in
flight. -/
structure SysState where
  ui : UIState
  inFlight : Nat

/-- Interleaving semantics: a `start` runs the synchronous prefix of
`handleGenerate` (incrementing the in-flight count if a request is sent); a
`complete` settles one in-flight request, running the rest of
`handleGenerate`. -/
def stepUI (s : SysState) : UIEvent → SysState
  | UIEvent.start =>
      let r := startGenerate s.ui
      if r.2 then { ui := r.1, inFlight := s.inFlight + 1 } else { s with ui := r.1 }
  | UIEvent.complete o =>
      match s.inFlight with
      | 0 => s
      | n + 1 => { ui := completeGenerate s.ui o, inFlight := n }

/-- Run a sequence of interleaving events. -/
def runUI (evs : List UIEvent) (s : SysState) : SysState := evs.foldl stepUI s

/-- System invariant: at most one request in flight, and while one is in
flight the `isProcessing` flag is set. -/
def SysInv (s : SysState) : Prop :=
  s.inFlight ≤ 1 ∧ (s.inFlight = 1 → s.ui.isProcessing = true)

theorem startGenerate_guard (st : UIState)
    (h : st.isProcessing = true ∨ st.btnDisabled = true) :
    startGenerate st = (st, false) := by
  rcases h with h | h
  · simp [startGenerate, h]
  · cases hp : st.isProcessing <;> simp [startGenerate, hp, h]

theorem startGenerate_sent (st : UIState) (h : (startGenerate st).2 = true) :
    st.isProcessing = false ∧ (startGenerate st).1.isProcessing = true := by
  by_cases h1 : st.isProcessing = true
  · simp [startGenerate, h1] at h
  · by_cases h2 : st.btnDisabled = true
    · simp [startGenerate, h1, h2] at h
    · by_cases h3 : (jsTrim st.inputVal).isEmpty = true
      · simp [startGenerate, h1, h2, h3] at h
      · refine ⟨by simpa using h1, ?_⟩
        simp [startGenerate, h1, h2, h3]

theorem startGenerate_not_sent (st : UIState) (h : (startGenerate st).2 = false) :
    (startGenerate st).1.isProcessing = st.isProcessing := by
  by_cases h1 : st.isProcessing = true
  · simp [startGenerate, h1]
  · by_cases h2 : st.btnDisabled = true
    · simp [startGenerate, h1, h2]
    · by_cases h3 : (jsTrim st.inputVal).isEmpty = true
      · simp [startGenerate, h1, h2, h3]
      · simp [startGenerate, h1, h2, h3] at h

theorem completeGenerate_reset (st : UIState) (o : FetchOutcome) :
    (completeGenerate st o).isProcessing = false
    ∧ (completeGenerate st o).btnDisabled = false := by
  cases o <;> simp [completeGenerate]

theorem stepUI_inv (s : SysState) (e : UIEvent) (h : SysInv s) : SysInv (stepUI s e) := by
  obtain ⟨hle, hone⟩ := h
  cases e with
  | start =>
    by_cases hs : (startGenerate s.ui).2 = true
    · have hzero : s.inFlight = 0 := by
        by_contra hne
        have h1 : s.inFlight = 1 := by omega
        have := hone h1
        have := (startGenerate_sent s.ui hs).1
        simp_all
      simp only [stepUI, hs, if_true]
      refine ⟨?_, fun _ => (startGenerate_sent s.ui hs).2⟩
      show s.inFlight + 1 ≤ 1
      omega
    · have hs' : (startGenerate s.ui).2 = false := by simpa using hs
      simp only [stepUI, hs', Bool.false_eq_true, if_false]
      refine ⟨hle, fun h1 => ?_⟩
      rw [startGenerate_not_sent s.ui hs']
      exact hone h1
  | complete o =>
    cases hn : s.inFlight with
    | zero =>
      simp only [stepUI, hn]
      exact ⟨hle, hone⟩
    | succ n =>
      have hn0 : n = 0 := by omega
      simp only [stepUI, hn]
      refine ⟨?_, ?_⟩
      · show n ≤ 1
        omega
      · intro h1
        exact absurd (show n = 1 from h1) (by omega)

theorem runUI_inv (evs : List UIEvent) : ∀ s : SysState, SysInv s → SysInv (runUI evs s) := by
  induction evs with
  | nil => intro s h; exact h
  | cons e evs ih => intro s h; exact ih (stepUI s e) (stepUI_inv s e h)

/-- C9: the frontend never has two generate requests in flight at once.  Any
`handleGenerate` invocation that starts while `isProcessing` is true (or
while the button is disabled) returns without sending a request or changing
any state; whenever a request is sent, `isProcessing` is reset to false and
the button re-enabled on every completion path, success or error; and along
any interleaving of invocations and completions starting with no request in
flight, at most one request is ever in flight. -/
theorem C9_no_concurrent_generate :
    (∀ (st : UIState) (o : FetchOutcome),
        st.isProcessing = true ∨ st.btnDisabled = true →
        handleGenerate st o = (st, false))
    ∧ (∀ (st : UIState) (o : FetchOutcome),
        (handleGenerate st o).2 = true →
        (handleGenerate st o).1.isProcessing = false
        ∧ (handleGenerate st o).1.btnDisabled = false)
    ∧ (∀ (evs : List UIEvent) (ui : UIState),
        (runUI evs { ui := ui, inFlight := 0 }).inFlight ≤ 1) := by
  refine ⟨?_, ?_, ?_⟩
  · intro st o h
    unfold handleGenerate
    rw [startGenerate_guard st h]
    simp
  · intro st o h
    by_cases hs : (startGenerate st).2 = true
    · simp only [handleGenerate, hs, if_true]
      exact completeGenerate_reset (startGenerate st).1 o
    · exfalso
      simp [handleGenerate, hs] at h
  · intro evs ui
    have h0 : SysInv { ui := ui, inFlight := 0 } := by
      refine ⟨?_, ?_⟩
      · show (0 : Nat) ≤ 1
        omega
      · intro h
        exact absurd (show (0 : Nat) = 1 from h) (by omega)
    exact (runUI_inv evs { ui := ui, inFlight := 0 } h0).1

/-- A state in which a generation is already in progress. -/
def busyUI : UIState :=
  { isProcessing := true, btnDisabled := true, btnText := "Processing...".data,
    inputVal := "hello".data, outputVal := [], statusMsg := none }

/-- An idle state with some input text. -/
def idleUI : UIState :=
  { isProcessing := false, btnDisabled := false, btnText := "Fix / Rewrite".data,
    inputVal := "hello".data, outputVal := [], statusMsg := none }

/-- Witness for C9 at concrete inputs: an invocation during processing is a
no-op that sends nothing, and a concrete interleaving with a double `start`
keeps at most one request in flight. -/
theorem C9_no_concurrent_generate_witness :
    handleGenerate busyUI (FetchOutcome.success "ok".data) = (busyUI, false)
    ∧ (runUI [UIEvent.start, UIEvent.start,
              UIEvent.complete (FetchOutcome.success "ok".data)]
        { ui := idleUI, inFlight := 0 }).inFlight ≤ 1 :=
  ⟨C9_no_concurrent_generate.1 busyUI (FetchOutcome.success "ok".data) (Or.inl rfl),
   C9_no_concurrent_generate.2.2
     [UIEvent.start, UIEvent.start, UIEvent.complete (FetchOutcome.success "ok".data)] idleUI⟩

/-! ## Claim C10 -/

/-- `script.js` lines 100–126, `getApiKey`: the trimmed input-field value
when its trim is non-empty; otherwise the stored value (when truthy) is
trimmed and returned through `key || null`, so an empty or whitespace-only
stored value yields `null` (`none`).  `inputVal` is the `apiKey` field's
value and `stored` the value under localStorage key `lughati_openai_key`
(`none` = absent). -/
def getApiKey (inputVal : List Char) (stored : Option (List Char)) : Option (List Char) :=
  let inputKey := jsTrim inputVal
  if inputKey.isEmpty then
    match stored with
    | none => none
    | some k =>
        if k.isEmpty then none
        else if (jsTrim k).isEmpty then none else some (jsTrim k)
  else some inputKey

/-- `script.js` lines 213–222: the request headers sent by `handleGenerate`
— `Content-Type` always, `X-OPENAI-KEY` exactly when an API key was
resolved. -/
def requestHeaders (apiKey : Option (List Char)) : List (List Char × List Char) :=
  match apiKey with
  | some k => [("Content-Type".data, "application/json".data), ("X-OPENAI-KEY".data, k)]
  | none => [("Content-Type".data, "application/json".data)]

/-- Whether a header with the given name is present. -/
def hasHeader (name : List Char) (hs : List (List Char × List Char)) : Bool :=
  hs.any (fun h => h.1 == name)

/-- Counterexample to C10 as stated: with an empty input field and a
whitespace-only stored value (which is present), `getApiKey` returns `none`,
not the trimmed stored value `some ""`. -/
theorem C10_counterexample_stored_whitespace :
    getApiKey [] (some " ".data) = none
    ∧ getApiKey [] (some " ".data) ≠ some (jsTrim " ".data) := by
  constructor
  · rfl
  · intro h
    exact Option.noConfusion h

/-- C10 (amended): `getApiKey` returns the trimmed input-field value when
that trim is non-empty; otherwise, when a stored value exists whose trim is
non-empty, that trimmed stored value; otherwise `none` — in particular
`none` (not the empty trimmed value) when the stored value is empty or
whitespace-only.  `handleGenerate` attaches the `X-OPENAI-KEY` header iff
`getApiKey` returns a non-`none` value. -/
theorem C10_api_key_resolution (inputVal : List Char) (stored : Option (List Char)) :
    ((jsTrim inputVal).isEmpty = false →
      getApiKey inputVal stored = some (jsTrim inputVal))
    ∧ ((jsTrim inputVal).isEmpty = true →
        ∀ k, stored = some k → (jsTrim k).isEmpty = false →
          getApiKey inputVal stored = some (jsTrim k))
    ∧ ((jsTrim inputVal).isEmpty = true →
        (stored = none ∨ (∃ k, stored = some k ∧ (jsTrim k).isEmpty = true)) →
        getApiKey inputVal stored = none)
    ∧ (hasHeader "X-OPENAI-KEY".data (requestHeaders (getApiKey inputVal stored)) = true
        ↔ getApiKey inputVal stored ≠ none) := by
  refine ⟨?_, ?_, ?_, ?_⟩
  · intro h
    simp [getApiKey, h]
  · intro h k hst hk
    subst hst
    by_cases hk0 : k.isEmpty = true
    · exfalso
      have : k = [] := List.isEmpty_iff.mp hk0
      subst this
      simp [jsTrim] at hk
    · simp [getApiKey, h, hk0, hk]
  · intro h hst
    rcases hst with hst | ⟨k, hst, hk⟩
    · subst hst
      simp [getApiKey, h]
    · subst hst
      by_cases hk0 : k.isEmpty = true
      · simp [getApiKey, h, hk0]
      · simp [getApiKey, h, hk0, hk]
  · cases hres : getApiKey inputVal stored with
    | none => simp [requestHeaders, hasHeader]
    | some k => simp [requestHeaders, hasHeader]

/-- Witness for C10 at concrete inputs: an empty input field with a stored
key falls back to the trimmed stored value, and a typed key wins. -/
theorem C10_api_key_resolution_witness :
    getApiKey [] (some " sk-abc ".data) = some (jsTrim " sk-abc ".data)
    ∧ getApiKey "sk-xyz".data none = some (jsTrim "sk-xyz".data) :=
  ⟨(C10_api_key_resolution [] (some " sk-abc ".data)).2.1 (by decide)
      " sk-abc ".data rfl (by decide),
   (C10_api_key_resolution "sk-xyz".data none).1 (by decide)⟩

end Lughati
